import Mathlib

/-!
Shallow embedding of the GithubMonitor server (server.js) for verification.

Modelling conventions:
* Timestamps (`created_at`, `updated_at`, `submitted_at`) are modelled as
  integers (milliseconds since the epoch); the JS code only ever compares
  them through `new Date(s)`, which is a monotone injection from the
  timestamp strings the API returns, so integer comparison is faithful.
* Every upstream HTTP call made through `githubRequest` either returns a
  parsed JSON value or throws; a call site is therefore modelled as an
  `Except String` value (or a function producing one) handed to the
  function that awaits it.  The `try/catch` blocks of the source become
  `match` on that `Except`.
* JS `Array.prototype.sort` is stable (ECMA-262); a sort with comparator
  `(a, b) => new Date(b.created_at) - new Date(a.created_at)` is modelled
  as `List.mergeSort` (stable) with the boolean order
  `fun a b => decide (b.created_at ≤ a.created_at)` (comparator ≤ 0).
* Fields reached through `?.` or defaulted with `|| []` are modelled as
  `Option` with `Option.getD`/`Option.map`.
-/

namespace GithubMonitor

/-- Character-list model of JS `String.prototype.startsWith`:
`startsWithChars s p` is true when `p` is an initial segment of `s`. -/
def startsWithChars : List Char → List Char → Bool
  | _, [] => true
  | [], _ :: _ => false
  | c :: s, d :: p => c == d && startsWithChars s p

/-- JS `s.startsWith(p)` on Lean strings, via their character lists. -/
def strStartsWith (s p : String) : Bool :=
  startsWithChars s.data p.data

/-- Stable descending order on a `created_at` projection: the boolean
order corresponding to the JS comparator
`(a, b) => new Date(b.created_at) - new Date(a.created_at)` being ≤ 0. -/
def newestFirst {α : Type} (created_at : α → Int) (a b : α) : Bool :=
  decide (created_at b ≤ created_at a)

/-- One element of the reviews list returned by the
`/pulls/:n/reviews` endpoint; `user` stands for `review.user.login`. -/
structure Review where
  state : String
  user : String
  submitted_at : Int
  author_association : String
deriving DecidableEq

/-- The record `getPRReviews` builds from a review (drops `state`). -/
structure ReviewEntry where
  user : String
  submitted_at : Int
  author_association : String
deriving DecidableEq

/-- Projection of a review to the emitted entry, as in the three
`.map(review => ({user, submitted_at, author_association}))` calls. -/
def toReviewEntry (review : Review) : ReviewEntry :=
  { user := review.user
    submitted_at := review.submitted_at
    author_association := review.author_association }

/-- One element of `requestedReviewers.users`. -/
structure RequestedUser where
  login : String
deriving DecidableEq

/-- One element of `requestedReviewers.teams`. -/
structure RequestedTeam where
  slug : String
  name : String
deriving DecidableEq

/-- The `/pulls/:n/requested_reviewers` payload; the JS defaults missing
fields with `requestedReviewers.users || []`, hence the `Option`s. -/
structure RequestedReviewers where
  users : Option (List RequestedUser)
  teams : Option (List RequestedTeam)
deriving DecidableEq

/-- Output shape `{user, type: 'user'}` for an outstanding user request. -/
structure ReviewRequestUser where
  user : String
  type : String
deriving DecidableEq

/-- Output shape `{team, name, type: 'team'}` for an outstanding team
request. -/
structure ReviewRequestTeam where
  team : String
  name : String
  type : String
deriving DecidableEq

/-- The result object of `getPRReviews`. -/
structure ReviewSummary where
  approving : List ReviewEntry
  changesRequested : List ReviewEntry
  pending : List ReviewEntry
  requestedUsers : List ReviewRequestUser
  requestedTeams : List ReviewRequestTeam
deriving DecidableEq

/-- Embedding of `getPRReviews` (server.js lines 53-112).  The two
awaited requests are modelled as one `Except` carrying both payloads;
the `catch` branch returns the five empty collections. -/
def getPRReviews (fetched : Except String (List Review × RequestedReviewers)) :
    ReviewSummary :=
  match fetched with
  | .error _ =>
      { approving := []
        changesRequested := []
        pending := []
        requestedUsers := []
        requestedTeams := [] }
  | .ok (reviews, requestedReviewers) =>
      let approving :=
        (reviews.filter (fun review => review.state == "APPROVED")).map toReviewEntry
      let changesRequested :=
        (reviews.filter (fun review => review.state == "CHANGES_REQUESTED")).map toReviewEntry
      let pending :=
        (reviews.filter (fun review => review.state == "PENDING")).map toReviewEntry
      let requestedUsers := requestedReviewers.users.getD []
      let requestedTeams := requestedReviewers.teams.getD []
      { approving := approving
        changesRequested := changesRequested
        pending := pending
        requestedUsers :=
          requestedUsers.map (fun user => { user := user.login, type := "user" })
        requestedTeams :=
          requestedTeams.map (fun team =>
            { team := team.slug, name := team.name, type := "team" }) }

/-- A comment from either the issue-comments or review-comments
endpoint; only `created_at` is ever used. -/
structure Comment where
  created_at : Int
deriving DecidableEq

/-- Embedding of `getLatestPRComment` (server.js lines 115-133):
concatenate the two comment lists, return `null` when empty, otherwise
sort descending by `created_at` and return the first element's
`created_at`.  The `catch` branch returns `null`. -/
def getLatestPRComment
    (fetched : Except String (List Comment × List Comment)) : Option Int :=
  match fetched with
  | .error _ => none
  | .ok (issueComments, reviewComments) =>
      let allComments := issueComments ++ reviewComments
      if allComments.length == 0 then none
      else
        let sorted := allComments.mergeSort (newestFirst Comment.created_at)
        sorted.head?.map (fun comment => comment.created_at)

/-- A workflow run as returned by the `/actions/runs` endpoint.
`conclusion` is `null` until the run completes; `head_branch` and
`head_sha` can be `null`; `pull_requests` may be missing (the JS writes
`run.pull_requests || []`). -/
structure RawRun where
  id : Int
  name : String
  status : String
  conclusion : Option String
  created_at : Int
  updated_at : Int
  html_url : String
  head_branch : Option String
  head_sha : Option String
  pull_requests : Option (List Int)
deriving DecidableEq

/-- The record `getPRWorkflows` emits per run. -/
structure PRWorkflowRun where
  id : Int
  name : String
  status : String
  conclusion : Option String
  created_at : Int
  updated_at : Int
  html_url : String
deriving DecidableEq

/-- Embedding of `getPRWorkflows` (server.js lines 136-153): map the
fetched runs to the output shape; the `catch` branch returns `[]`. -/
def getPRWorkflows (fetched : Except String (List RawRun)) : List PRWorkflowRun :=
  match fetched with
  | .error _ => []
  | .ok runs =>
      runs.map (fun run =>
        { id := run.id
          name := run.name
          status := run.status
          conclusion := run.conclusion
          created_at := run.created_at
          updated_at := run.updated_at
          html_url := run.html_url })

/-- The guard `run.head_branch && run.head_branch.startsWith('refs/pull/')`
(server.js line 175).  A `null` head branch is falsy, so the guard is
false; an empty string is also falsy in JS, but then `startsWith` is
false as well, so the embedding agrees. -/
def isPullRequestBranch (head_branch : Option String) : Bool :=
  match head_branch with
  | some branch => strStartsWith branch "refs/pull/"
  | none => false

/-- The record `getUserWorkflows` pushes onto `allRuns`
(server.js lines 183-194); `head_sha` is shortened with
`run.head_sha?.substring(0, 7)`. -/
structure StandaloneRun where
  id : Int
  name : String
  repository : String
  status : String
  conclusion : Option String
  created_at : Int
  updated_at : Int
  html_url : String
  head_branch : Option String
  head_sha : Option String
deriving DecidableEq

/-- Projection of a raw run to the standalone-run record. -/
def toStandaloneRun (repo : String) (run : RawRun) : StandaloneRun :=
  { id := run.id
    name := run.name
    repository := repo
    status := run.status
    conclusion := run.conclusion
    created_at := run.created_at
    updated_at := run.updated_at
    html_url := run.html_url
    head_branch := run.head_branch
    head_sha := run.head_sha.map (fun sha => sha.take 7) }

/-- The inner `for (const run of workflows.workflow_runs)` loop of
`getUserWorkflows` (server.js lines 166-196): skip runs older than the
cutoff, skip pull-request refs, keep runs with no associated PRs. -/
def collectRepoRuns (threeDaysAgo : Int) (repo : String) : List RawRun → List StandaloneRun
  | [] => []
  | run :: rest =>
      if run.created_at < threeDaysAgo then
        collectRepoRuns threeDaysAgo repo rest
      else if isPullRequestBranch run.head_branch then
        collectRepoRuns threeDaysAgo repo rest
      else if (run.pull_requests.getD []).length == 0 then
        toStandaloneRun repo run :: collectRepoRuns threeDaysAgo repo rest
      else
        collectRepoRuns threeDaysAgo repo rest

/-- Contribution of one repository to `getUserWorkflows`: the fetched
runs pushed through the inner loop, or nothing when the fetch threw
(the per-repository `catch`, server.js lines 197-199). -/
def fetchedRepoRuns (threeDaysAgo : Int)
    (fetchRuns : String → Except String (List RawRun)) (repo : String) :
    List StandaloneRun :=
  match fetchRuns repo with
  | .ok runs => collectRepoRuns threeDaysAgo repo runs
  | .error _ => []

/-- Embedding of `getUserWorkflows` (server.js lines 156-204).
`threeDaysAgo` stands for the value computed by
`new Date(); setDate(getDate() - 3)` at entry; `fetchRuns` models the
per-repository `/actions/runs?actor=...` request. -/
def getUserWorkflows (threeDaysAgo : Int) (repositories : List String)
    (fetchRuns : String → Except String (List RawRun)) : List StandaloneRun :=
  let allRuns := repositories.foldl (fun acc repo =>
    match fetchRuns repo with
    | .ok runs => acc ++ collectRepoRuns threeDaysAgo repo runs
    | .error _ => acc) []
  allRuns.mergeSort (newestFirst StandaloneRun.created_at)

/-- An open PR as returned by the `/pulls?state=open` endpoint;
`user_login`, `head_ref`, `head_sha`, `base_ref` stand for
`pr.user.login`, `pr.head.ref`, `pr.head.sha`, `pr.base.ref`.
`mergeable` is tri-state (`null` = unknown). -/
structure RawPR where
  id : Int
  number : Nat
  title : String
  html_url : String
  head_ref : String
  head_sha : String
  base_ref : String
  created_at : Int
  updated_at : Int
  user_login : String
  draft : Bool
  mergeable : Option Bool
deriving DecidableEq

/-- The aggregated PR record pushed onto `allPRs` by the `/api/prs`
handler (server.js lines 228-244). -/
structure PRRecord where
  id : Int
  number : Nat
  title : String
  repository : String
  html_url : String
  head_branch : String
  base_branch : String
  created_at : Int
  updated_at : Int
  author : String
  draft : Bool
  mergeable : Option Bool
  reviews : ReviewSummary
  latest_comment : Option Int
  workflows : List PRWorkflowRun
deriving DecidableEq

/-- The configuration and upstream world the `/api/prs` handler runs
against: the configured username and repository list, and the outcome
of every upstream request it may issue (a failing request is an
`Except.error`). -/
structure Env where
  username : String
  repositories : List String
  fetchPRs : String → Except String (List RawPR)
  fetchReviews : String → Nat → Except String (List Review × RequestedReviewers)
  fetchComments : String → Nat → Except String (List Comment × List Comment)
  fetchWorkflows : String → Nat → String → Except String (List RawRun)

/-- The record built for one PR inside the handler loop: the three
sub-fetches (reviews, latest comment, workflows) each absorb their own
failures. -/
def buildPRRecord (env : Env) (repo : String) (pr : RawPR) : PRRecord :=
  { id := pr.id
    number := pr.number
    title := pr.title
    repository := repo
    html_url := pr.html_url
    head_branch := pr.head_ref
    base_branch := pr.base_ref
    created_at := pr.created_at
    updated_at := pr.updated_at
    author := pr.user_login
    draft := pr.draft
    mergeable := pr.mergeable
    reviews := getPRReviews (env.fetchReviews repo pr.number)
    latest_comment := getLatestPRComment (env.fetchComments repo pr.number)
    workflows := getPRWorkflows (env.fetchWorkflows repo pr.number pr.head_sha) }

/-- The repository loop of the `/api/prs` handler (server.js lines
211-249): per repository, fetch the open PRs, filter to the configured
author, build a record per PR; a failing PR-list fetch is caught and
contributes nothing. -/
def collectPRs (env : Env) : List PRRecord :=
  env.repositories.foldl (fun allPRs repo =>
    match env.fetchPRs repo with
    | .ok prs =>
        allPRs ++ (prs.filter (fun pr => pr.user_login == env.username)).map
          (buildPRRecord env repo)
    | .error _ => allPRs) []

/-- Contribution of a single repository to `collectPRs`. -/
def repoPRRecords (env : Env) (repo : String) : List PRRecord :=
  match env.fetchPRs repo with
  | .ok prs =>
      (prs.filter (fun pr => pr.user_login == env.username)).map
        (buildPRRecord env repo)
  | .error _ => []

/-- The `/api/prs` payload: the collected records sorted by
`created_at` descending (server.js line 252). -/
def apiPrs (env : Env) : List PRRecord :=
  (collectPRs env).mergeSort (newestFirst PRRecord.created_at)

/-- An HTTP response of the handler: `ok` is status 200 with a JSON
array body, `serverError` is status 500 with `{error}`. -/
inductive ApiResponse (α : Type) where
  | ok : α → ApiResponse α
  | serverError : String → ApiResponse α
deriving DecidableEq

/-- Status code of a response. -/
def responseStatus {α : Type} : ApiResponse α → Nat
  | .ok _ => 200
  | .serverError _ => 500

/-- The `/api/prs` route (server.js lines 207-259).  Inside the outer
`try` block the only operations that can throw are the `githubRequest`
calls, and each is absorbed by the per-repository `catch` or by the
`catch` inside `getPRReviews` / `getLatestPRComment` /
`getPRWorkflows`; the body therefore always produces a value, modelled
by the `Except.ok`.  The outer `catch` maps an escaped error to a 500
response. -/
def apiPrsRoute (env : Env) : ApiResponse (List PRRecord) :=
  match (Except.ok (apiPrs env) : Except String (List PRRecord)) with
  | .ok allPRs => ApiResponse.ok allPRs
  | .error _ => ApiResponse.serverError "Failed to fetch PRs"

/-- Membership test of a user handle in the `approving` entries. -/
def appearsInApproving (summary : ReviewSummary) (u : String) : Bool :=
  summary.approving.any (fun entry => entry.user == u)

/-- Membership test of a user handle in the `changesRequested` entries. -/
def appearsInChangesRequested (summary : ReviewSummary) (u : String) : Bool :=
  summary.changesRequested.any (fun entry => entry.user == u)

/-- Membership test of a user handle in the `pending` entries. -/
def appearsInPending (summary : ReviewSummary) (u : String) : Bool :=
  summary.pending.any (fun entry => entry.user == u)

/-- Membership test of a user handle in the `requestedUsers` entries. -/
def appearsInRequestedUsers (summary : ReviewSummary) (u : String) : Bool :=
  summary.requestedUsers.any (fun entry => entry.user == u)

/-- Number of the user-bearing sequences of a `ReviewSummary` a handle
occurs in.  Teams occur only in `requestedTeams` (the other four
sequences carry user handles), so a team trivially occurs in at most
one sequence and only the user side needs counting. -/
def sequencesContaining (summary : ReviewSummary) (u : String) : Nat :=
  (if appearsInApproving summary u then 1 else 0) +
  (if appearsInChangesRequested summary u then 1 else 0) +
  (if appearsInPending summary u then 1 else 0) +
  (if appearsInRequestedUsers summary u then 1 else 0)

/-- Snapshot-consistency invariant claimed by the specification: every
handle occurs in at most one of the sequences of the summary. -/
def summaryDisjoint (summary : ReviewSummary) : Prop :=
  ∀ u : String, sequencesContaining summary u ≤ 1

/-- States that `getPRReviews` classifies into one of the three lists. -/
def classifiedState (s : String) : Bool :=
  s == "APPROVED" || s == "CHANGES_REQUESTED" || s == "PENDING"

instance : Std.Antisymm (fun (a b : Int) => a ≤ b) :=
  ⟨fun h1 h2 => le_antisymm h1 h2⟩

theorem newestFirst_trans {α : Type} (f : α → Int) (a b c : α)
    (h1 : newestFirst f a b = true) (h2 : newestFirst f b c = true) :
    newestFirst f a c = true := by
  simp only [newestFirst, decide_eq_true_eq] at *
  exact le_trans h2 h1

theorem newestFirst_total {α : Type} (f : α → Int) (a b : α) :
    (newestFirst f a b || newestFirst f b a) = true := by
  simp only [newestFirst, Bool.or_eq_true, decide_eq_true_eq]
  exact le_total (f b) (f a)

theorem foldl_append_flatten {α β : Type} (g : β → List α) (l : List β) :
    ∀ init : List α,
      l.foldl (fun acc x => acc ++ g x) init = init ++ (l.map g).flatten := by
  induction l with
  | nil => intro init; simp
  | cons x xs ih =>
      intro init
      simp [List.foldl_cons, ih, List.append_assoc]

theorem mem_collectRepoRuns {threeDaysAgo : Int} {repo : String}
    {runs : List RawRun} {sr : StandaloneRun} :
    sr ∈ collectRepoRuns threeDaysAgo repo runs ↔
      ∃ run ∈ runs, ¬ run.created_at < threeDaysAgo ∧
        isPullRequestBranch run.head_branch = false ∧
        run.pull_requests.getD [] = [] ∧ sr = toStandaloneRun repo run := by
  induction runs with
  | nil => simp [collectRepoRuns]
  | cons run rest ih =>
      by_cases hd : run.created_at < threeDaysAgo
      · simp only [collectRepoRuns, if_pos hd, ih, List.mem_cons]
        constructor
        · rintro ⟨r, hr, h⟩; exact ⟨r, Or.inr hr, h⟩
        · rintro ⟨r, hmem, hcut, h⟩
          rcases hmem with heq | hr
          · exact absurd (heq ▸ hd) hcut
          · exact ⟨r, hr, hcut, h⟩
      · by_cases hb : isPullRequestBranch run.head_branch
        · simp only [collectRepoRuns, if_neg hd, if_pos hb, ih, List.mem_cons]
          constructor
          · rintro ⟨r, hr, h⟩; exact ⟨r, Or.inr hr, h⟩
          · rintro ⟨r, hmem, hcut, hbr, h⟩
            rcases hmem with heq | hr
            · rw [heq] at hbr; rw [hbr] at hb; exact absurd hb (by simp)
            · exact ⟨r, hr, hcut, hbr, h⟩
        · by_cases hp : (run.pull_requests.getD []).length == 0
          · simp only [collectRepoRuns, if_neg hd, if_neg hb, if_pos hp,
              List.mem_cons, ih]
            constructor
            · rintro (heq | ⟨r, hr, h⟩)
              · refine ⟨run, Or.inl rfl, hd, by simpa using hb, ?_, heq⟩
                simpa [List.length_eq_zero] using hp
              · exact ⟨r, Or.inr hr, h⟩
            · rintro ⟨r, hmem, hcut, hbr, hpr, h⟩
              rcases hmem with heq | hr
              · exact Or.inl (by rw [h, heq])
              · exact Or.inr ⟨r, hr, hcut, hbr, hpr, h⟩
          · simp only [collectRepoRuns, if_neg hd, if_neg hb, if_neg hp, ih]
            constructor
            · rintro ⟨r, hr, h⟩; exact ⟨r, List.mem_cons_of_mem _ hr, h⟩
            · rintro ⟨r, hmem, hcut, hbr, hpr, h⟩
              rcases List.mem_cons.mp hmem with heq | hr
              · rw [heq] at hpr; simp [hpr] at hp
              · exact ⟨r, hr, hcut, hbr, hpr, h⟩

theorem getUserWorkflows_eq (threeDaysAgo : Int) (repositories : List String)
    (fetchRuns : String → Except String (List RawRun)) :
    getUserWorkflows threeDaysAgo repositories fetchRuns =
      ((repositories.map (fetchedRepoRuns threeDaysAgo fetchRuns)).flatten).mergeSort
        (newestFirst StandaloneRun.created_at) := by
  unfold getUserWorkflows
  have hfun : (fun (acc : List StandaloneRun) (repo : String) =>
      match fetchRuns repo with
      | .ok runs => acc ++ collectRepoRuns threeDaysAgo repo runs
      | .error _ => acc) =
      fun acc repo => acc ++ fetchedRepoRuns threeDaysAgo fetchRuns repo := by
    funext acc repo
    unfold fetchedRepoRuns
    cases fetchRuns repo <;> simp
  rw [hfun, foldl_append_flatten]
  simp

theorem mem_getUserWorkflows {threeDaysAgo : Int} {repositories : List String}
    {fetchRuns : String → Except String (List RawRun)} {sr : StandaloneRun} :
    sr ∈ getUserWorkflows threeDaysAgo repositories fetchRuns ↔
      ∃ repo ∈ repositories, ∃ runs, fetchRuns repo = .ok runs ∧
        sr ∈ collectRepoRuns threeDaysAgo repo runs := by
  rw [getUserWorkflows_eq, List.mem_mergeSort, List.mem_flatten]
  constructor
  · rintro ⟨l, hl, hsr⟩
    obtain ⟨repo, hrepo, rfl⟩ := List.mem_map.mp hl
    unfold fetchedRepoRuns at hsr
    cases hfetch : fetchRuns repo with
    | ok runs => rw [hfetch] at hsr; exact ⟨repo, hrepo, runs, hfetch, hsr⟩
    | error e => rw [hfetch] at hsr; simp at hsr
  · rintro ⟨repo, hrepo, runs, hfetch, hsr⟩
    refine ⟨fetchedRepoRuns threeDaysAgo fetchRuns repo,
      List.mem_map.mpr ⟨repo, hrepo, rfl⟩, ?_⟩
    unfold fetchedRepoRuns
    rw [hfetch]
    exact hsr

theorem collectPRs_eq (env : Env) :
    collectPRs env = (env.repositories.map (repoPRRecords env)).flatten := by
  unfold collectPRs
  have hfun : (fun (allPRs : List PRRecord) (repo : String) =>
      match env.fetchPRs repo with
      | .ok prs =>
          allPRs ++ (prs.filter (fun pr => pr.user_login == env.username)).map
            (buildPRRecord env repo)
      | .error _ => allPRs) =
      fun allPRs repo => allPRs ++ repoPRRecords env repo := by
    funext allPRs repo
    unfold repoPRRecords
    cases env.fetchPRs repo <;> simp
  rw [hfun, foldl_append_flatten]
  simp

theorem mem_apiPrs {env : Env} {rec : PRRecord} :
    rec ∈ apiPrs env ↔
      ∃ repo ∈ env.repositories, ∃ prs, env.fetchPRs repo = .ok prs ∧
        ∃ pr ∈ prs, pr.user_login = env.username ∧
          rec = buildPRRecord env repo pr := by
  unfold apiPrs
  rw [List.mem_mergeSort, collectPRs_eq, List.mem_flatten]
  constructor
  · rintro ⟨l, hl, hrec⟩
    obtain ⟨repo, hrepo, rfl⟩ := List.mem_map.mp hl
    unfold repoPRRecords at hrec
    cases hfetch : env.fetchPRs repo with
    | ok prs =>
        rw [hfetch] at hrec
        obtain ⟨pr, hpr, rfl⟩ := List.mem_map.mp hrec
        obtain ⟨hmem, hlogin⟩ := List.mem_filter.mp hpr
        exact ⟨repo, hrepo, prs, hfetch, pr, hmem, by simpa using hlogin, rfl⟩
    | error e => rw [hfetch] at hrec; simp at hrec
  · rintro ⟨repo, hrepo, prs, hfetch, pr, hmem, hlogin, rfl⟩
    refine ⟨repoPRRecords env repo, List.mem_map.mpr ⟨repo, hrepo, rfl⟩, ?_⟩
    unfold repoPRRecords
    rw [hfetch]
    exact List.mem_map.mpr ⟨pr, List.mem_filter.mpr ⟨hmem, by simpa using hlogin⟩, rfl⟩

theorem appearsInApproving_iff (reviews : List Review) (rr : RequestedReviewers)
    (u : String) :
    appearsInApproving (getPRReviews (.ok (reviews, rr))) u = true ↔
      ∃ r ∈ reviews, r.state = "APPROVED" ∧ r.user = u := by
  simp only [appearsInApproving, getPRReviews, List.any_eq_true, List.mem_map,
    List.mem_filter, toReviewEntry, beq_iff_eq]
  constructor
  · rintro ⟨entry, ⟨r, ⟨hmem, hstate⟩, rfl⟩, huser⟩
    exact ⟨r, hmem, hstate, huser⟩
  · rintro ⟨r, hmem, hstate, huser⟩
    exact ⟨_, ⟨r, ⟨hmem, hstate⟩, rfl⟩, huser⟩

theorem appearsInChangesRequested_iff (reviews : List Review)
    (rr : RequestedReviewers) (u : String) :
    appearsInChangesRequested (getPRReviews (.ok (reviews, rr))) u = true ↔
      ∃ r ∈ reviews, r.state = "CHANGES_REQUESTED" ∧ r.user = u := by
  simp only [appearsInChangesRequested, getPRReviews, List.any_eq_true,
    List.mem_map, List.mem_filter, toReviewEntry, beq_iff_eq]
  constructor
  · rintro ⟨entry, ⟨r, ⟨hmem, hstate⟩, rfl⟩, huser⟩
    exact ⟨r, hmem, hstate, huser⟩
  · rintro ⟨r, hmem, hstate, huser⟩
    exact ⟨_, ⟨r, ⟨hmem, hstate⟩, rfl⟩, huser⟩

theorem appearsInPending_iff (reviews : List Review) (rr : RequestedReviewers)
    (u : String) :
    appearsInPending (getPRReviews (.ok (reviews, rr))) u = true ↔
      ∃ r ∈ reviews, r.state = "PENDING" ∧ r.user = u := by
  simp only [appearsInPending, getPRReviews, List.any_eq_true, List.mem_map,
    List.mem_filter, toReviewEntry, beq_iff_eq]
  constructor
  · rintro ⟨entry, ⟨r, ⟨hmem, hstate⟩, rfl⟩, huser⟩
    exact ⟨r, hmem, hstate, huser⟩
  · rintro ⟨r, hmem, hstate, huser⟩
    exact ⟨_, ⟨r, ⟨hmem, hstate⟩, rfl⟩, huser⟩

theorem appearsInRequestedUsers_iff (reviews : List Review)
    (rr : RequestedReviewers) (u : String) :
    appearsInRequestedUsers (getPRReviews (.ok (reviews, rr))) u = true ↔
      ∃ ru ∈ rr.users.getD [], ru.login = u := by
  simp only [appearsInRequestedUsers, getPRReviews, List.any_eq_true,
    List.mem_map, beq_iff_eq]
  constructor
  · rintro ⟨entry, ⟨ru, hmem, rfl⟩, hlogin⟩
    exact ⟨ru, hmem, hlogin⟩
  · rintro ⟨ru, hmem, hlogin⟩
    exact ⟨_, ⟨ru, hmem, rfl⟩, hlogin⟩

/-- A concrete approving review by alice. -/
def reviewAliceApproved : Review :=
  { state := "APPROVED", user := "alice", submitted_at := 1,
    author_association := "MEMBER" }

/-- A requested-reviewers payload naming alice as an outstanding
reviewer (as the API reports after a re-request of her review). -/
def requestedAlice : RequestedReviewers :=
  { users := some [{ login := "alice" }], teams := some [] }

/-- C1: the claimed invariant is false on the code as written.  With an
upstream snapshot in which alice has an APPROVED review and is also
listed as a requested reviewer (the state the API reports after her
review is re-requested), `getPRReviews` places alice both in
`approving` and in `requestedUsers`: the function performs no
cross-sequence de-duplication. -/
theorem getPRReviews_disjoint_counterexample :
    ¬ summaryDisjoint (getPRReviews (.ok ([reviewAliceApproved], requestedAlice))) := by
  intro h
  have h2 := h "alice"
  have : sequencesContaining
      (getPRReviews (.ok ([reviewAliceApproved], requestedAlice))) "alice" = 2 := by
    decide
  omega

/-- C1 (amended): the disjointness invariant holds only under
assumptions on the upstream snapshot that `getPRReviews` itself never
checks: if no user has submitted reviews in two different classified
states (APPROVED / CHANGES_REQUESTED / PENDING) and no outstanding
requested user also has a classified review in the review list, then
every user handle appears in at most one of the five sequences of the
produced summary (teams appear only in `requestedTeams`). -/
theorem getPRReviews_disjoint_of_snapshot (reviews : List Review)
    (rr : RequestedReviewers)
    (hstates : ∀ r1 ∈ reviews, ∀ r2 ∈ reviews,
      classifiedState r1.state = true → classifiedState r2.state = true →
      r1.user = r2.user → r1.state = r2.state)
    (hreq : ∀ ru ∈ rr.users.getD [], ∀ r ∈ reviews,
      classifiedState r.state = true → r.user ≠ ru.login) :
    summaryDisjoint (getPRReviews (.ok (reviews, rr))) := by
  intro u
  set summary := getPRReviews (.ok (reviews, rr)) with hsum
  have hAC : appearsInApproving summary u = true →
      appearsInChangesRequested summary u = true → False := by
    intro hA hC
    obtain ⟨r1, h1, hs1, hu1⟩ := (appearsInApproving_iff reviews rr u).mp hA
    obtain ⟨r2, h2, hs2, hu2⟩ := (appearsInChangesRequested_iff reviews rr u).mp hC
    have := hstates r1 h1 r2 h2 (by simp [classifiedState, hs1])
      (by simp [classifiedState, hs2]) (hu1.trans hu2.symm)
    rw [hs1, hs2] at this
    simp at this
  have hAP : appearsInApproving summary u = true →
      appearsInPending summary u = true → False := by
    intro hA hP
    obtain ⟨r1, h1, hs1, hu1⟩ := (appearsInApproving_iff reviews rr u).mp hA
    obtain ⟨r2, h2, hs2, hu2⟩ := (appearsInPending_iff reviews rr u).mp hP
    have := hstates r1 h1 r2 h2 (by simp [classifiedState, hs1])
      (by simp [classifiedState, hs2]) (hu1.trans hu2.symm)
    rw [hs1, hs2] at this
    simp at this
  have hCP : appearsInChangesRequested summary u = true →
      appearsInPending summary u = true → False := by
    intro hC hP
    obtain ⟨r1, h1, hs1, hu1⟩ := (appearsInChangesRequested_iff reviews rr u).mp hC
    obtain ⟨r2, h2, hs2, hu2⟩ := (appearsInPending_iff reviews rr u).mp hP
    have := hstates r1 h1 r2 h2 (by simp [classifiedState, hs1])
      (by simp [classifiedState, hs2]) (hu1.trans hu2.symm)
    rw [hs1, hs2] at this
    simp at this
  have hRA : appearsInRequestedUsers summary u = true →
      appearsInApproving summary u = true → False := by
    intro hR hA
    obtain ⟨ru, hru, hlogin⟩ := (appearsInRequestedUsers_iff reviews rr u).mp hR
    obtain ⟨r, hr, hs, hu1⟩ := (appearsInApproving_iff reviews rr u).mp hA
    exact hreq ru hru r hr (by simp [classifiedState, hs]) (hu1.trans hlogin.symm)
  have hRC : appearsInRequestedUsers summary u = true →
      appearsInChangesRequested summary u = true → False := by
    intro hR hC
    obtain ⟨ru, hru, hlogin⟩ := (appearsInRequestedUsers_iff reviews rr u).mp hR
    obtain ⟨r, hr, hs, hu1⟩ := (appearsInChangesRequested_iff reviews rr u).mp hC
    exact hreq ru hru r hr (by simp [classifiedState, hs]) (hu1.trans hlogin.symm)
  have hRP : appearsInRequestedUsers summary u = true →
      appearsInPending summary u = true → False := by
    intro hR hP
    obtain ⟨ru, hru, hlogin⟩ := (appearsInRequestedUsers_iff reviews rr u).mp hR
    obtain ⟨r, hr, hs, hu1⟩ := (appearsInPending_iff reviews rr u).mp hP
    exact hreq ru hru r hr (by simp [classifiedState, hs]) (hu1.trans hlogin.symm)
  unfold sequencesContaining
  cases hA : appearsInApproving summary u <;>
    cases hC : appearsInChangesRequested summary u <;>
      cases hP : appearsInPending summary u <;>
        cases hR : appearsInRequestedUsers summary u <;>
          simp_all

/-- Witness for the amended C1 theorem: a snapshot in which alice has
the only review and bob is the only outstanding requested reviewer
satisfies both hypotheses, so the produced summary is disjoint. -/
theorem getPRReviews_disjoint_of_snapshot_witness :
    summaryDisjoint (getPRReviews (.ok ([reviewAliceApproved],
      { users := some [{ login := "bob" }], teams := some [] }))) :=
  getPRReviews_disjoint_of_snapshot [reviewAliceApproved]
    { users := some [{ login := "bob" }], teams := some [] }
    (by decide) (by decide)

/-- C4: membership characterization of the three classified lists of
`getPRReviews`: an entry is in `approving` (resp. `changesRequested`,
`pending`) exactly when it is the projection of a fetched review whose
state is APPROVED (resp. CHANGES_REQUESTED, PENDING); a review with any
other state, e.g. COMMENTED or DISMISSED, therefore contributes to none
of the three lists. -/
theorem getPRReviews_classification (reviews : List Review)
    (rr : RequestedReviewers) :
    (∀ entry, entry ∈ (getPRReviews (.ok (reviews, rr))).approving ↔
      ∃ r ∈ reviews, r.state = "APPROVED" ∧ toReviewEntry r = entry) ∧
    (∀ entry, entry ∈ (getPRReviews (.ok (reviews, rr))).changesRequested ↔
      ∃ r ∈ reviews, r.state = "CHANGES_REQUESTED" ∧ toReviewEntry r = entry) ∧
    (∀ entry, entry ∈ (getPRReviews (.ok (reviews, rr))).pending ↔
      ∃ r ∈ reviews, r.state = "PENDING" ∧ toReviewEntry r = entry) := by
  refine ⟨fun entry => ?_, fun entry => ?_, fun entry => ?_⟩ <;>
    simp only [getPRReviews, List.mem_map, List.mem_filter, beq_iff_eq] <;>
      constructor
  all_goals
    first
    | (rintro ⟨r, ⟨hr, hstate⟩, rfl⟩; exact ⟨r, hr, hstate, rfl⟩)
    | (rintro ⟨r, hr, hstate, rfl⟩; exact ⟨r, ⟨hr, hstate⟩, rfl⟩)

/-- Witness for the C4 theorem: with a COMMENTED review by carol and an
APPROVED review by alice, alice's entry is in `approving` and carol's
entry is in none of the three classified lists. -/
theorem getPRReviews_classification_witness :
    toReviewEntry reviewAliceApproved ∈
      (getPRReviews (.ok ([reviewAliceApproved,
        { state := "COMMENTED", user := "carol", submitted_at := 2,
          author_association := "NONE" }], requestedAlice))).approving :=
  ((getPRReviews_classification
    [reviewAliceApproved,
      { state := "COMMENTED", user := "carol", submitted_at := 2,
        author_association := "NONE" }] requestedAlice).1 _).mpr
    ⟨reviewAliceApproved, by decide, by decide, rfl⟩

theorem head_mergeSort_newestFirst_eq_max (l : List Comment) (hl : l ≠ []) :
    ((l.mergeSort (newestFirst Comment.created_at)).head?.map
      (fun comment => comment.created_at)) = (l.map Comment.created_at).max? := by
  have hperm := List.mergeSort_perm l (newestFirst Comment.created_at)
  have hne : l.mergeSort (newestFirst Comment.created_at) ≠ [] := by
    intro h0
    apply hl
    have := @List.length_mergeSort Comment (newestFirst Comment.created_at) l
    rw [h0] at this
    exact List.length_eq_zero.mp this.symm
  obtain ⟨hd, tl, heq⟩ := List.exists_cons_of_ne_nil hne
  have hsorted := List.sorted_mergeSort (newestFirst_trans Comment.created_at)
    (newestFirst_total Comment.created_at) l
  rw [heq] at hsorted hperm ⊢
  have hhead : ((hd :: tl).head?.map (fun comment => comment.created_at)) =
      some hd.created_at := rfl
  rw [hhead]
  symm
  rw [List.max?_eq_some_iff (fun a => le_refl a)
    (fun a b => max_choice a b) (fun a b c => max_le_iff)]
  constructor
  · exact List.mem_map.mpr ⟨hd, hperm.mem_iff.mp (List.mem_cons_self hd tl), rfl⟩
  · intro b hb
    obtain ⟨c, hc, rfl⟩ := List.mem_map.mp hb
    have hc2 : c ∈ hd :: tl := hperm.mem_iff.mpr hc
    rcases List.mem_cons.mp hc2 with rfl | hc3
    · exact le_refl _
    · have := List.rel_of_pairwise_cons hsorted hc3
      simpa [newestFirst] using this

/-- C3: getLatestPRComment returns the maximum creation timestamp over
the union of the issue comments and the review comments, regardless of
which of the two lists contains it, and returns null when both lists
are empty (the maximum of an empty list) or when the fetch failed. -/
theorem getLatestPRComment_max (issueComments reviewComments : List Comment)
    (e : String) :
    getLatestPRComment (.ok (issueComments, reviewComments)) =
      ((issueComments ++ reviewComments).map Comment.created_at).max? ∧
    getLatestPRComment (.error e) = none := by
  refine ⟨?_, rfl⟩
  by_cases hl : issueComments ++ reviewComments = []
  · obtain ⟨h1, h2⟩ := List.append_eq_nil.mp hl
    subst h1
    subst h2
    rfl
  · have hne : (issueComments ++ reviewComments).length ≠ 0 := by
      simpa [List.length_eq_zero] using hl
    have hcond : ((issueComments ++ reviewComments).length == 0) = false :=
      beq_eq_false_iff_ne.mpr hne
    rw [show getLatestPRComment (.ok (issueComments, reviewComments)) =
        (if ((issueComments ++ reviewComments).length == 0) = true then none
         else ((issueComments ++ reviewComments).mergeSort
           (newestFirst Comment.created_at)).head?.map
             (fun comment => comment.created_at)) from rfl, hcond]
    simp only [Bool.false_eq_true, if_false]
    exact head_mergeSort_newestFirst_eq_max _ hl

/-- Witness for the C3 theorem: timestamps 1 and 3 as issue comments
and 2 as a review comment yield 3. -/
theorem getLatestPRComment_max_witness :
    getLatestPRComment (.ok ([⟨1⟩, ⟨3⟩], [⟨2⟩])) = some 3 := by
  rw [(getLatestPRComment_max [⟨1⟩, ⟨3⟩] [⟨2⟩] "e").1]
  decide

/-- C2: getUserWorkflows drops every run created before the cutoff
(the value of now-minus-3-days computed at entry): a run whose
creation timestamp is below the cutoff never appears in the result,
and a run at or above the cutoff that passes the other two filters
(head branch not a pull-request ref, no associated PRs) is retained. -/
theorem getUserWorkflows_recency (threeDaysAgo : Int) (repositories : List String)
    (fetchRuns : String → Except String (List RawRun)) :
    (∀ repo run, run.created_at < threeDaysAgo →
      toStandaloneRun repo run ∉ getUserWorkflows threeDaysAgo repositories fetchRuns) ∧
    (∀ repo ∈ repositories, ∀ runs, fetchRuns repo = .ok runs → ∀ run ∈ runs,
      threeDaysAgo ≤ run.created_at → isPullRequestBranch run.head_branch = false →
      run.pull_requests.getD [] = [] →
      toStandaloneRun repo run ∈ getUserWorkflows threeDaysAgo repositories fetchRuns) := by
  constructor
  · intro repo run hold hmem
    obtain ⟨repo2, _, runs, _, hin⟩ := mem_getUserWorkflows.mp hmem
    obtain ⟨run2, _, hcut, _, _, heq⟩ := mem_collectRepoRuns.mp hin
    have hca : run.created_at = run2.created_at :=
      congrArg StandaloneRun.created_at heq
    exact hcut (hca ▸ hold)
  · intro repo hrepo runs hfetch run hrun hge hbr hpr
    exact mem_getUserWorkflows.mpr ⟨repo, hrepo, runs, hfetch,
      mem_collectRepoRuns.mpr ⟨run, hrun, not_lt.mpr hge, hbr, hpr, rfl⟩⟩

/-- A recent completed run on a plain branch with no associated PRs. -/
def runFresh : RawRun :=
  { id := 1, name := "build", status := "completed",
    conclusion := some "success", created_at := 100, updated_at := 100,
    html_url := "https://runs/1", head_branch := some "main",
    head_sha := some "abcdefghij", pull_requests := some [] }

/-- Witness for the C2 theorem: with cutoff 0, the run created at 100
is retained. -/
theorem getUserWorkflows_recency_witness :
    toStandaloneRun "octo/alpha" runFresh ∈
      getUserWorkflows 0 ["octo/alpha"] (fun _ => .ok [runFresh]) :=
  (getUserWorkflows_recency 0 ["octo/alpha"] (fun _ => .ok [runFresh])).2
    "octo/alpha" (by decide) [runFresh] rfl runFresh (by decide) (by decide)
    (by decide) (by decide)

/-- C5: getUserWorkflows never emits a run whose head branch starts
with the pull-request ref namespace: every run in the result has a
head branch that does not start with refs/pull/, and a run whose head
branch does start with refs/pull/ is excluded unconditionally, in
particular even when it has no associated PRs. -/
theorem getUserWorkflows_pull_ref_excluded (threeDaysAgo : Int)
    (repositories : List String)
    (fetchRuns : String → Except String (List RawRun)) :
    (∀ sr ∈ getUserWorkflows threeDaysAgo repositories fetchRuns, ∀ branch,
      sr.head_branch = some branch → strStartsWith branch "refs/pull/" = false) ∧
    (∀ repo run branch, run.head_branch = some branch →
      strStartsWith branch "refs/pull/" = true →
      toStandaloneRun repo run ∉
        getUserWorkflows threeDaysAgo repositories fetchRuns) := by
  have h1 : ∀ sr ∈ getUserWorkflows threeDaysAgo repositories fetchRuns, ∀ branch,
      sr.head_branch = some branch → strStartsWith branch "refs/pull/" = false := by
    intro sr hmem branch hbr
    obtain ⟨repo2, _, runs, _, hin⟩ := mem_getUserWorkflows.mp hmem
    obtain ⟨run2, _, _, hpull, _, rfl⟩ := mem_collectRepoRuns.mp hin
    have hbr2 : run2.head_branch = some branch := hbr
    rw [hbr2] at hpull
    simpa [isPullRequestBranch] using hpull
  refine ⟨h1, ?_⟩
  intro repo run branch hbr hstarts hmem
  have := h1 _ hmem branch (by simpa [toStandaloneRun] using hbr)
  rw [hstarts] at this
  simp at this

/-- A recent run on a synthetic pull-request ref with no associated
PRs. -/
def runPullRef : RawRun :=
  { id := 2, name := "ci", status := "completed",
    conclusion := some "success", created_at := 100, updated_at := 100,
    html_url := "https://runs/2", head_branch := some "refs/pull/42/merge",
    head_sha := some "abcdefghij", pull_requests := some [] }

/-- Witness for the C5 theorem: the run on refs/pull/42/merge is
excluded even though its associated-PR list is empty. -/
theorem getUserWorkflows_pull_ref_excluded_witness :
    toStandaloneRun "octo/alpha" runPullRef ∉
      getUserWorkflows 0 ["octo/alpha"] (fun _ => .ok [runPullRef]) :=
  (getUserWorkflows_pull_ref_excluded 0 ["octo/alpha"]
    (fun _ => .ok [runPullRef])).2 "octo/alpha" runPullRef "refs/pull/42/merge"
    rfl (by decide)

/-- C10: a run with a null head branch is not excluded by the
pull-request-ref filter: when it is inside the recency window and has
no associated PRs it is included, and its null head branch is passed
through to the output record unchanged. -/
theorem getUserWorkflows_null_head_branch (threeDaysAgo : Int)
    (repositories : List String)
    (fetchRuns : String → Except String (List RawRun)) :
    ∀ repo ∈ repositories, ∀ runs, fetchRuns repo = .ok runs → ∀ run ∈ runs,
      run.head_branch = none → threeDaysAgo ≤ run.created_at →
      run.pull_requests.getD [] = [] →
      toStandaloneRun repo run ∈
        getUserWorkflows threeDaysAgo repositories fetchRuns ∧
      (toStandaloneRun repo run).head_branch = none := by
  intro repo hrepo runs hfetch run hrun hnull hge hpr
  refine ⟨mem_getUserWorkflows.mpr ⟨repo, hrepo, runs, hfetch,
    mem_collectRepoRuns.mpr ⟨run, hrun, not_lt.mpr hge, ?_, hpr, rfl⟩⟩, ?_⟩
  · rw [hnull]; rfl
  · simpa [toStandaloneRun] using hnull

/-- A recent run whose head_branch field is null. -/
def runNullBranch : RawRun :=
  { id := 3, name := "nightly", status := "completed",
    conclusion := some "failure", created_at := 100, updated_at := 100,
    html_url := "https://runs/3", head_branch := none,
    head_sha := none, pull_requests := none }

/-- Witness for the C10 theorem: the null-head-branch run is included
and keeps its null head branch. -/
theorem getUserWorkflows_null_head_branch_witness :
    toStandaloneRun "octo/alpha" runNullBranch ∈
      getUserWorkflows 0 ["octo/alpha"] (fun _ => .ok [runNullBranch]) ∧
    (toStandaloneRun "octo/alpha" runNullBranch).head_branch = none :=
  getUserWorkflows_null_head_branch 0 ["octo/alpha"]
    (fun _ => .ok [runNullBranch]) "octo/alpha" (by decide) [runNullBranch] rfl
    runNullBranch (by decide) (by decide) (by decide) (by decide)

/-- C6: a failing PR-list fetch for one repository is equivalent to
that repository returning an empty PR list: the aggregation still
completes, the failing repository contributes zero records, and every
author-matching PR successfully fetched for any repository still
appears in the final sorted output. -/
theorem apiPrs_repo_failure (env : Env) (repo : String) (e : String)
    (hfail : env.fetchPRs repo = .error e) :
    apiPrs env = apiPrs { env with
      fetchPRs := fun r => if r = repo then .ok [] else env.fetchPRs r } ∧
    (∀ r ∈ env.repositories, ∀ prs, env.fetchPRs r = .ok prs → ∀ pr ∈ prs,
      pr.user_login = env.username → buildPRRecord env r pr ∈ apiPrs env) := by
  constructor
  · have hcontrib : repoPRRecords { env with
        fetchPRs := fun r => if r = repo then .ok [] else env.fetchPRs r } =
        repoPRRecords env := by
      funext r
      by_cases hr : r = repo
      · subst hr
        simp [repoPRRecords, hfail]
      · simp only [repoPRRecords, hr, if_neg hr]
        rfl
    unfold apiPrs
    rw [collectPRs_eq, collectPRs_eq, hcontrib]
  · intro r hr prs hfetch pr hpr hlogin
    exact mem_apiPrs.mpr ⟨r, hr, prs, hfetch, pr, hpr, hlogin, rfl⟩

/-- A PR authored by alice. -/
def prAlice : RawPR :=
  { id := 1, number := 7, title := "fix parsing", html_url := "https://prs/1",
    head_ref := "feature-a", head_sha := "aaaaaaa", base_ref := "main",
    created_at := 100, updated_at := 110, user_login := "alice",
    draft := false, mergeable := some true }

/-- A PR authored by bob. -/
def prBob : RawPR :=
  { id := 2, number := 9, title := "add docs", html_url := "https://prs/2",
    head_ref := "feature-b", head_sha := "bbbbbbb", base_ref := "main",
    created_at := 200, updated_at := 210, user_login := "bob",
    draft := false, mergeable := none }

/-- Two configured repositories where the first repository's PR-list
fetch fails with a 404 and the second returns one PR by alice. -/
def envOneFailing : Env :=
  { username := "alice"
    repositories := ["octo/alpha", "octo/beta"]
    fetchPRs := fun r => if r = "octo/beta" then .ok [prAlice] else .error "404"
    fetchReviews := fun _ _ => .error "down"
    fetchComments := fun _ _ => .error "down"
    fetchWorkflows := fun _ _ _ => .error "down" }

/-- Witness for the C6 theorem: despite the 404 on octo/alpha, the PR
of octo/beta appears in the output. -/
theorem apiPrs_repo_failure_witness :
    buildPRRecord envOneFailing "octo/beta" prAlice ∈ apiPrs envOneFailing :=
  (apiPrs_repo_failure envOneFailing "octo/alpha" "404" rfl).2
    "octo/beta" (by decide) [prAlice] rfl prAlice (by decide) (by decide)

/-- C7: the `/api/prs` output is sorted by creation timestamp
descending; two records with equal timestamps keep their relative
order from the pre-sort list (stable ties); and the pre-sort list is
the concatenation of the per-repository contributions in configured
repository-list order. -/
theorem apiPrs_sorted_stable (env : Env) :
    List.Pairwise (fun a b => b.created_at ≤ a.created_at) (apiPrs env) ∧
    (∀ a b : PRRecord, a.created_at = b.created_at →
      List.Sublist [a, b] (collectPRs env) → List.Sublist [a, b] (apiPrs env)) ∧
    collectPRs env = (env.repositories.map (repoPRRecords env)).flatten := by
  refine ⟨?_, ?_, collectPRs_eq env⟩
  · have h := List.sorted_mergeSort (newestFirst_trans PRRecord.created_at)
      (newestFirst_total PRRecord.created_at) (collectPRs env)
    exact List.Pairwise.imp (fun hab => by simpa [newestFirst] using hab) h
  · intro a b heq hsub
    have hpair : List.Pairwise
        (fun x y => newestFirst PRRecord.created_at x y = true) [a, b] := by
      simp [List.pairwise_cons, newestFirst, le_of_eq heq.symm]
    exact List.sublist_mergeSort (newestFirst_trans PRRecord.created_at)
      (newestFirst_total PRRecord.created_at) hpair hsub

/-- A PR by alice on the first repository, created at time 100. -/
def prTieAlpha : RawPR :=
  { id := 10, number := 11, title := "tie alpha", html_url := "https://prs/10",
    head_ref := "feature-c", head_sha := "ccccccc", base_ref := "main",
    created_at := 100, updated_at := 100, user_login := "alice",
    draft := false, mergeable := some true }

/-- A PR by alice on the second repository, also created at time 100. -/
def prTieBeta : RawPR :=
  { id := 11, number := 12, title := "tie beta", html_url := "https://prs/11",
    head_ref := "feature-d", head_sha := "ddddddd", base_ref := "main",
    created_at := 100, updated_at := 100, user_login := "alice",
    draft := true, mergeable := none }

/-- Two repositories each contributing one PR with the same creation
timestamp. -/
def envTies : Env :=
  { username := "alice"
    repositories := ["octo/alpha", "octo/beta"]
    fetchPRs := fun r => if r = "octo/alpha" then .ok [prTieAlpha] else .ok [prTieBeta]
    fetchReviews := fun _ _ => .error "down"
    fetchComments := fun _ _ => .error "down"
    fetchWorkflows := fun _ _ _ => .error "down" }

/-- Witness for the C7 theorem: the two equal-timestamp records keep
the repository-list order octo/alpha before octo/beta in the sorted
output. -/
theorem apiPrs_sorted_stable_witness :
    List.Sublist [buildPRRecord envTies "octo/alpha" prTieAlpha,
      buildPRRecord envTies "octo/beta" prTieBeta] (apiPrs envTies) :=
  (apiPrs_sorted_stable envTies).2.1 _ _ (by decide) (by decide)

/-- C8: the `/api/prs` output consists of exactly the upstream PRs
whose author handle equals the configured username: every emitted
record's author is the configured username, and a record is emitted
precisely when some configured repository's successful PR list
contains a PR by the configured user that builds it. -/
theorem apiPrs_author_filter (env : Env) :
    (∀ rec ∈ apiPrs env, rec.author = env.username) ∧
    (∀ rec : PRRecord, rec ∈ apiPrs env ↔
      ∃ repo ∈ env.repositories, ∃ prs, env.fetchPRs repo = .ok prs ∧
        ∃ pr ∈ prs, pr.user_login = env.username ∧
          rec = buildPRRecord env repo pr) := by
  refine ⟨?_, fun rec => mem_apiPrs⟩
  intro rec hmem
  obtain ⟨repo, _, prs, _, pr, _, hlogin, rfl⟩ := mem_apiPrs.mp hmem
  simpa [buildPRRecord] using hlogin

/-- Two repositories, one returning a PR by alice and the other a PR
by bob, with alice the configured user. -/
def envTwoAuthors : Env :=
  { username := "alice"
    repositories := ["octo/alpha", "octo/beta"]
    fetchPRs := fun r => if r = "octo/alpha" then .ok [prAlice] else .ok [prBob]
    fetchReviews := fun _ _ => .error "down"
    fetchComments := fun _ _ => .error "down"
    fetchWorkflows := fun _ _ _ => .error "down" }

/-- Witness for the C8 theorem: alice's PR from octo/alpha is in the
output and bob's PR from octo/beta is not. -/
theorem apiPrs_author_filter_witness :
    buildPRRecord envTwoAuthors "octo/alpha" prAlice ∈ apiPrs envTwoAuthors ∧
    buildPRRecord envTwoAuthors "octo/beta" prBob ∉ apiPrs envTwoAuthors := by
  constructor
  · exact ((apiPrs_author_filter envTwoAuthors).2 _).mpr
      ⟨"octo/alpha", by decide, [prAlice], rfl, prAlice, by decide,
        by decide, rfl⟩
  · intro hmem
    have h := (apiPrs_author_filter envTwoAuthors).1 _ hmem
    exact absurd h (by decide)

/-- C9: for every pattern of upstream fetch outcomes (the `Env` fields
carry every failure the upstream can produce, per repository and per
PR), the `/api/prs` route produces a 200 response carrying the
aggregated array; the 500 branch is unreachable from upstream
errors because each of them is absorbed by an inner catch. -/
theorem apiPrsRoute_always_ok (env : Env) :
    apiPrsRoute env = ApiResponse.ok (apiPrs env) ∧
    responseStatus (apiPrsRoute env) = 200 :=
  ⟨rfl, rfl⟩

end GithubMonitor
